import Mathlib

/-!
Shallow embedding of the `syncer` package (reorg state machine, range driver
helpers and the adaptive concurrency controller) of the repository, together
with theorems checking the specification's claims about it.

The Go syncer mutates a `Syncer` struct in place; here every operation takes
the state and returns the updated state.  Handler callbacks
(`BlockAdded` / `BlockRemoved`) are modelled by caller-supplied response
functions returning `none` on success and `some msg` when the callback fails,
and the trace of callback invocations is returned alongside the state.
Go float64 arithmetic in the concurrency controller is modelled by exact
rational arithmetic.
-/

/-- `types.BlockIdentifier`: `(index, hash)`. -/
structure BlockIdentifier where
  index : Int
  hash : String
deriving DecidableEq, Repr

/-- `types.Block`: the core only reads the identifier and parent identifier. -/
structure Block where
  blockIdentifier : BlockIdentifier
  parentBlockIdentifier : BlockIdentifier
deriving DecidableEq, Repr

/-- `syncer.blockResult`: `(index, block | nil, orphanHead)`. -/
structure BlockResult where
  index : Int
  block : Option Block
  orphanHead : Bool
deriving DecidableEq, Repr

/-- `types.NetworkStatusResponse` (the two fields the syncer reads). -/
structure NetworkStatusResponse where
  currentBlockIdentifier : BlockIdentifier
  genesisBlockIdentifier : BlockIdentifier
deriving DecidableEq, Repr

/-- `syncer.PastBlockSize = 20`. -/
def PastBlockSize : Nat := 20

/-- `syncer.MinConcurrency = 1`. -/
def MinConcurrency : Int := 1

/-- `syncer.defaultAdjustmentWindow = 10`. -/
def defaultAdjustmentWindow : Int := 10

/-- `syncer.defaultTrailingWindow = 1000`. -/
def defaultTrailingWindow : Nat := 1000

/-- The fields of `syncer.Syncer` that the modelled operations read or write.
`sizeMultiplier`, `cacheSize` and the controller arithmetic are Go float64 /
int values; floats are modelled as exact rationals. -/
structure Syncer where
  genesisBlock : BlockIdentifier
  nextIndex : Int
  pastBlocks : List BlockIdentifier
  cacheSize : Int
  sizeMultiplier : ℚ
  maxConcurrency : Int
  concurrency : Int
  goalConcurrency : Int
  recentBlockSizes : List Int
  lastAdjustment : Int
deriving DecidableEq, Repr

/-- The message formatted by `checkRemove` for an out-of-order block:
`fmt.Errorf("%w: got block %d instead of %d", ErrOutOfOrder, got, expected)`. -/
def outOfOrderMessage (got expected : Int) : String :=
  "got block " ++ toString got ++ " instead of " ++ toString expected

/-- The errors of the `syncer` package reachable from the modelled
operations. -/
inductive SyncerError where
  | blockResultNil
  | outOfOrder (msg : String)
  | cannotRemoveGenesisBlock
  | handlerError (msg : String)
  | getCurrentHeadBlockFailed
  | getNetworkStatusFailed (msg : String)
deriving DecidableEq, Repr

/-- Outcome of a modelled call: a Go error, or a nil-pointer dereference
(which in Go is a runtime panic, not an error return). -/
inductive PErr where
  | goErr (e : SyncerError)
  | nilDeref
deriving DecidableEq, Repr

/-- One Handler callback invocation.  The argument of `blockAdded` is an
`Option` because Go passes a possibly-nil `*types.Block` pointer. -/
inductive HandlerEvent where
  | blockAdded (b : Option Block)
  | blockRemoved (id : Option BlockIdentifier)
deriving DecidableEq, Repr

/-- Modelled from the spec: `types.Hash` is not under `src/`; per the spec
(§3) two `BlockIdentifier`s are equal iff both fields match, so hash-equality
`types.Hash(a) == types.Hash(b)` is field-wise equality. -/
def hashEq (a b : BlockIdentifier) : Bool := a == b

/-- `Syncer.attemptOrphan`. -/
def attemptOrphan (s : Syncer) (lastBlock : BlockIdentifier) :
    Except PErr (Bool × Option BlockIdentifier) :=
  if hashEq s.genesisBlock lastBlock then
    .error (.goErr .cannotRemoveGenesisBlock)
  else
    .ok (true, some lastBlock)

/-- `Syncer.checkRemove`.  The Go code indexes `pastBlocks[len-1]` after a
non-emptiness check; here the two are fused into a match on `getLast?`.
When `orphanHead` is unset it dereferences `br.block`, which is nil-safe only
because `processBlock` filters nil-block gap results first. -/
def checkRemove (s : Syncer) (br : BlockResult) :
    Except PErr (Bool × Option BlockIdentifier) :=
  match s.pastBlocks.getLast? with
  | none => .ok (false, none)
  | some lastBlock =>
    if br.orphanHead then
      attemptOrphan s lastBlock
    else
      match br.block with
      | none => .error .nilDeref
      | some block =>
        if block.blockIdentifier.index != s.nextIndex then
          .error (.goErr (.outOfOrder
            (outOfOrderMessage block.blockIdentifier.index s.nextIndex)))
        else if !hashEq block.parentBlockIdentifier lastBlock then
          attemptOrphan s lastBlock
        else
          .ok (false, some lastBlock)

/-- `Syncer.processBlock`.  `hA` and `hR` are the Handler's responses to
`BlockAdded` and `BlockRemoved` (`none` = success).  Returns the state after
the call (the Go method mutates in place, so the state at an error return is
meaningful), the trace of Handler invocations made, and the outcome
(`none` = success). -/
def processBlock (hA : Option Block → Option String)
    (hR : Option BlockIdentifier → Option String)
    (s : Syncer) (br : Option BlockResult) :
    Syncer × List HandlerEvent × Option PErr :=
  match br with
  | none => (s, [], some (.goErr .blockResultNil))
  | some br =>
    if br.block.isNone && !br.orphanHead then
      ({ s with nextIndex := s.nextIndex + 1 }, [], none)
    else
      match checkRemove s br with
      | .error e => (s, [], some e)
      | .ok (shouldRemove, lastBlock) =>
        if shouldRemove then
          match hR lastBlock with
          | some msg => (s, [.blockRemoved lastBlock], some (.goErr (.handlerError msg)))
          | none =>
            match lastBlock with
            | none => (s, [.blockRemoved none], some .nilDeref)
            | some lb =>
              ({ s with pastBlocks := s.pastBlocks.dropLast, nextIndex := lb.index },
                [.blockRemoved (some lb)], none)
        else
          let block := br.block
          match hA block with
          | some msg => (s, [.blockAdded block], some (.goErr (.handlerError msg)))
          | none =>
            match block with
            | none => (s, [.blockAdded none], some .nilDeref)
            | some b =>
              let appended := s.pastBlocks ++ [b.blockIdentifier]
              let trimmed := if appended.length > PastBlockSize then appended.tail else appended
              ({ s with pastBlocks := trimmed,
                        nextIndex := b.blockIdentifier.index + 1 },
                [.blockAdded (some b)], none)

/-- `Syncer.setStart`.  The Helper's `NetworkStatus` reply is passed in as
`status`. -/
def setStart (status : Except String NetworkStatusResponse)
    (s : Syncer) (index : Int) : Except String Syncer :=
  match status with
  | .error e => .error e
  | .ok networkStatus =>
    let s := { s with genesisBlock := networkStatus.genesisBlockIdentifier }
    if index != -1 then
      .ok { s with nextIndex := index }
    else
      .ok { s with nextIndex := networkStatus.genesisBlockIdentifier.index }

/-- `Syncer.nextSyncableRange`.  The Helper's `NetworkStatus` reply is passed
in as `status`; returns `(rangeEnd, halt)`. -/
def nextSyncableRange (status : Except String NetworkStatusResponse)
    (s : Syncer) (endIndex : Int) : Except SyncerError (Int × Bool) :=
  if s.nextIndex == -1 then
    .error .getCurrentHeadBlockFailed
  else
    match status with
    | .error e => .error (.getNetworkStatusFailed e)
    | .ok networkStatus =>
      let endIndex :=
        if endIndex == -1 || endIndex > networkStatus.currentBlockIdentifier.index then
          networkStatus.currentBlockIdentifier.index
        else
          endIndex
      if s.nextIndex > endIndex then
        .ok (-1, true)
      else
        .ok (endIndex, false)

/-- The halt-handling decision of the `Sync` loop: on a halt report `Sync`
breaks out (terminating successfully) iff
`s.nextIndex > endIndex && endIndex != -1`; otherwise it sleeps
`defaultSyncSleep` and polls again. -/
def syncShouldTerminateOnHalt (s : Syncer) (endIndex : Int) : Bool :=
  decide (s.nextIndex > endIndex) && endIndex != -1

/-- The `maxSize` loop at the head of `adjustWorkers`: maximum of
`recentBlockSizes`, starting from 0. -/
def maxBlockSize (sizes : List Int) : Int :=
  sizes.foldl (fun m b => if b > m then b else m) 0

/-- Go `int64(q)` on a float: truncation toward zero. -/
def int64trunc (q : ℚ) : Int :=
  if 0 ≤ q then ⌊q⌋ else ⌈q⌉

/-- `Syncer.adjustWorkers`: the slow-rise / fast-fall controller.  Returns
the updated state and `shouldCreate`.  float64 products and quotients are
modelled exactly over ℚ. -/
def adjustWorkers (s : Syncer) : Syncer × Bool :=
  let maxQ : ℚ := (maxBlockSize s.recentBlockSizes : ℚ) * s.sizeMultiplier
  let estimatedMaxCache : ℚ := maxQ * (s.concurrency : ℚ)
  let riseFired : Bool :=
    decide (estimatedMaxCache + maxQ < (s.cacheSize : ℚ)) &&
    decide (s.concurrency < s.maxConcurrency) &&
    decide (s.lastAdjustment > defaultAdjustmentWindow)
  let s :=
    if riseFired then
      { s with goalConcurrency := s.goalConcurrency + 1,
               concurrency := s.concurrency + 1,
               lastAdjustment := 0 }
    else s
  let s :=
    if estimatedMaxCache > (s.cacheSize : ℚ) then
      let newGoalConcurrency :=
        let n := int64trunc ((s.cacheSize : ℚ) / maxQ)
        if n < MinConcurrency then MinConcurrency else n
      if s.goalConcurrency != newGoalConcurrency then
        { s with goalConcurrency := newGoalConcurrency, lastAdjustment := 0 }
      else s
    else s
  let s :=
    if s.recentBlockSizes.length > defaultTrailingWindow then
      { s with recentBlockSizes := s.recentBlockSizes.tail }
    else s
  (s, riseFired)

/-- A Handler that accepts every `BlockAdded` call. -/
def acceptAdded : Option Block → Option String := fun _ => none

/-- A Handler that accepts every `BlockRemoved` call. -/
def acceptRemoved : Option BlockIdentifier → Option String := fun _ => none

/-- A concrete syncer state used when instantiating theorems. -/
def baseSyncer : Syncer :=
  { genesisBlock := ⟨0, "gen"⟩
    nextIndex := 0
    pastBlocks := []
    cacheSize := 0
    sizeMultiplier := 0
    maxConcurrency := 0
    concurrency := 0
    goalConcurrency := 0
    recentBlockSizes := []
    lastAdjustment := 0 }

/-- C1: unwinds (orphan head, or in-order fresh block whose parent does not
hash-equal the tail) with a non-genesis tail call `Handler.BlockRemoved`
exactly once with the tail, pop the tail, set `nextIndex` to the popped
tail's index, and make no `BlockAdded` call. -/
theorem processBlock_unwind_spec
    (hA : Option Block → Option String) (hR : Option BlockIdentifier → Option String)
    (s : Syncer) (br : BlockResult) (t : BlockIdentifier)
    (hpast : s.pastBlocks.getLast? = some t)
    (hgen : hashEq s.genesisBlock t = false)
    (hok : hR (some t) = none)
    (htrig : br.orphanHead = true ∨
      (br.orphanHead = false ∧ ∃ b, br.block = some b ∧
        b.blockIdentifier.index = s.nextIndex ∧
        hashEq b.parentBlockIdentifier t = false)) :
    processBlock hA hR s (some br) =
      ({ s with pastBlocks := s.pastBlocks.dropLast, nextIndex := t.index },
        [.blockRemoved (some t)], none) := by
  rcases htrig with horp | ⟨horp, b, hblk, hidx, hpar⟩
  · simp [processBlock, checkRemove, attemptOrphan, horp, hpast, hgen, hok]
  · simp [processBlock, checkRemove, attemptOrphan, horp, hpast, hgen, hok, hblk, hidx, hpar]

/-- Concrete state for instantiating the unwind theorem. -/
def unwindState : Syncer :=
  { baseSyncer with nextIndex := 2, pastBlocks := [⟨0, "gen"⟩, ⟨1, "a"⟩] }

/-- Witness for C1: an orphan-head result at a two-entry window pops the
tail. -/
theorem processBlock_unwind_spec_witness :
    unwindState.pastBlocks.getLast? = some ⟨1, "a"⟩ ∧
    hashEq unwindState.genesisBlock ⟨1, "a"⟩ = false ∧
    acceptRemoved (some ⟨1, "a"⟩) = none ∧
    processBlock acceptAdded acceptRemoved unwindState (some ⟨2, none, true⟩) =
      ({ unwindState with
          pastBlocks := unwindState.pastBlocks.dropLast,
          nextIndex := (1 : Int) },
        [.blockRemoved (some ⟨1, "a"⟩)], none) :=
  ⟨by decide, by decide, rfl,
    processBlock_unwind_spec acceptAdded acceptRemoved unwindState ⟨2, none, true⟩
      ⟨1, "a"⟩ (by decide) (by decide) rfl (Or.inl rfl)⟩

/-- C2: a fresh in-order block that connects (or arrives while `pastBlocks`
is empty) is handed to `Handler.BlockAdded` exactly once, its identifier is
appended at the tail (trimming the head past `PastBlockSize`), and
`nextIndex` becomes `index + 1`. -/
theorem processBlock_append_spec
    (hA : Option Block → Option String) (hR : Option BlockIdentifier → Option String)
    (s : Syncer) (br : BlockResult) (b : Block)
    (hblk : br.block = some b)
    (horp : br.orphanHead = false)
    (hidx : b.blockIdentifier.index = s.nextIndex)
    (hconn : s.pastBlocks = [] ∨
      ∃ t, s.pastBlocks.getLast? = some t ∧ hashEq b.parentBlockIdentifier t = true)
    (hok : hA (some b) = none) :
    processBlock hA hR s (some br) =
      ({ s with
          pastBlocks :=
            if (s.pastBlocks ++ [b.blockIdentifier]).length > PastBlockSize then
              (s.pastBlocks ++ [b.blockIdentifier]).tail
            else s.pastBlocks ++ [b.blockIdentifier],
          nextIndex := b.blockIdentifier.index + 1 },
        [.blockAdded (some b)], none) := by
  rcases hconn with hempty | ⟨t, hlast, hpar⟩
  · simp [processBlock, checkRemove, hblk, horp, hempty, hok]
  · simp [processBlock, checkRemove, hblk, horp, hlast, hidx, hpar, hok]

/-- Witness for C2: the first block is accepted into an empty window. -/
theorem processBlock_append_spec_witness :
    (baseSyncer.pastBlocks = [] ∨
      ∃ t, baseSyncer.pastBlocks.getLast? = some t ∧
        hashEq (⟨⟨0, "gen"⟩, ⟨0, "gen"⟩⟩ : Block).parentBlockIdentifier t = true) ∧
    processBlock acceptAdded acceptRemoved baseSyncer
      (some ⟨0, some ⟨⟨0, "gen"⟩, ⟨0, "gen"⟩⟩, false⟩) =
      ({ baseSyncer with pastBlocks := [⟨0, "gen"⟩], nextIndex := 1 },
        [.blockAdded (some ⟨⟨0, "gen"⟩, ⟨0, "gen"⟩⟩)], none) :=
  ⟨Or.inl rfl,
    processBlock_append_spec acceptAdded acceptRemoved baseSyncer
      ⟨0, some ⟨⟨0, "gen"⟩, ⟨0, "gen"⟩⟩, false⟩ ⟨⟨0, "gen"⟩, ⟨0, "gen"⟩⟩
      rfl rfl rfl (Or.inl rfl) rfl⟩

/-- Counterexample to C3 as stated: with `pastBlocks` empty, `checkRemove`
returns before the out-of-order check, so a fresh block with index 5 is
accepted (and `BlockAdded` is called) even though `nextIndex = 3`. -/
theorem processBlock_skips_order_check_when_empty :
    processBlock acceptAdded acceptRemoved { baseSyncer with nextIndex := 3 }
      (some ⟨5, some ⟨⟨5, "b5"⟩, ⟨4, "b4"⟩⟩, false⟩) =
      ({ baseSyncer with nextIndex := 6, pastBlocks := [⟨5, "b5"⟩] },
        [.blockAdded (some ⟨⟨5, "b5"⟩, ⟨4, "b4"⟩⟩)], none) := by
  decide

/-- C3 (amended with `pastBlocks` non-empty): a fresh block whose index is
not `nextIndex` makes `processBlock` fail with the OutOfOrder error carrying
"got block <got> instead of <expected>", leaving the state untouched. -/
theorem processBlock_outOfOrder_spec
    (hA : Option Block → Option String) (hR : Option BlockIdentifier → Option String)
    (s : Syncer) (br : BlockResult) (b : Block) (t : BlockIdentifier)
    (hpast : s.pastBlocks.getLast? = some t)
    (horp : br.orphanHead = false)
    (hblk : br.block = some b)
    (hidx : b.blockIdentifier.index ≠ s.nextIndex) :
    processBlock hA hR s (some br) =
      (s, [], some (.goErr (.outOfOrder
        (outOfOrderMessage b.blockIdentifier.index s.nextIndex)))) := by
  simp [processBlock, checkRemove, hpast, horp, hblk, hidx]

/-- Witness for C3's amended theorem, matching scenario S6 of the spec:
`nextIndex = 3`, received block index 5, message "got block 5 instead of 3". -/
theorem processBlock_outOfOrder_spec_witness :
    outOfOrderMessage 5 3 = "got block 5 instead of 3" ∧
    processBlock acceptAdded acceptRemoved
      { baseSyncer with nextIndex := 3, pastBlocks := [⟨2, "a2"⟩] }
      (some ⟨5, some ⟨⟨5, "b5"⟩, ⟨4, "b4"⟩⟩, false⟩) =
      ({ baseSyncer with nextIndex := 3, pastBlocks := [⟨2, "a2"⟩] }, [],
        some (.goErr (.outOfOrder (outOfOrderMessage 5 3)))) :=
  ⟨by decide,
    processBlock_outOfOrder_spec acceptAdded acceptRemoved
      { baseSyncer with nextIndex := 3, pastBlocks := [⟨2, "a2"⟩] }
      ⟨5, some ⟨⟨5, "b5"⟩, ⟨4, "b4"⟩⟩, false⟩ ⟨⟨5, "b5"⟩, ⟨4, "b4"⟩⟩ ⟨2, "a2"⟩
      rfl rfl rfl (by decide)⟩

/-- C4: an unwind whose tail hash-equals the genesis identifier fails with
CannotRemoveGenesis, making no Handler call and leaving the state
untouched. -/
theorem processBlock_genesis_refusal
    (hA : Option Block → Option String) (hR : Option BlockIdentifier → Option String)
    (s : Syncer) (br : BlockResult) (t : BlockIdentifier)
    (hpast : s.pastBlocks.getLast? = some t)
    (hgen : hashEq s.genesisBlock t = true)
    (htrig : br.orphanHead = true ∨
      (br.orphanHead = false ∧ ∃ b, br.block = some b ∧
        b.blockIdentifier.index = s.nextIndex ∧
        hashEq b.parentBlockIdentifier t = false)) :
    processBlock hA hR s (some br) =
      (s, [], some (.goErr .cannotRemoveGenesisBlock)) := by
  rcases htrig with horp | ⟨horp, b, hblk, hidx, hpar⟩
  · simp [processBlock, checkRemove, attemptOrphan, horp, hpast, hgen]
  · simp [processBlock, checkRemove, attemptOrphan, horp, hpast, hgen, hblk, hidx, hpar]

/-- Witness for C4, matching scenario S3 of the spec: `pastBlocks = [genesis]`
and an orphan-head signal at index 1. -/
theorem processBlock_genesis_refusal_witness :
    ({ baseSyncer with
        nextIndex := 1,
        pastBlocks := [⟨0, "gen"⟩] } : Syncer).pastBlocks.getLast? = some ⟨0, "gen"⟩ ∧
    hashEq baseSyncer.genesisBlock ⟨0, "gen"⟩ = true ∧
    processBlock acceptAdded acceptRemoved
      { baseSyncer with nextIndex := 1, pastBlocks := [⟨0, "gen"⟩] }
      (some ⟨1, none, true⟩) =
      ({ baseSyncer with nextIndex := 1, pastBlocks := [⟨0, "gen"⟩] }, [],
        some (.goErr .cannotRemoveGenesisBlock)) :=
  ⟨by decide, by decide,
    processBlock_genesis_refusal acceptAdded acceptRemoved
      { baseSyncer with nextIndex := 1, pastBlocks := [⟨0, "gen"⟩] }
      ⟨1, none, true⟩ ⟨0, "gen"⟩ (by decide) (by decide) (Or.inl rfl)⟩

/-- Counterexample to C5 (invariant P2) as stated: an omitted-block result
raises `nextIndex` above the genesis index while `pastBlocks` stays empty,
and `setStart` with an explicit start index does the same. -/
theorem pastBlocks_empty_above_genesis :
    processBlock acceptAdded acceptRemoved baseSyncer (some ⟨0, none, false⟩) =
      ({ baseSyncer with nextIndex := 1 }, [], none) ∧
    ({ baseSyncer with nextIndex := 1 } : Syncer).genesisBlock.index < 1 ∧
    ({ baseSyncer with nextIndex := 1 } : Syncer).pastBlocks = [] ∧
    setStart (.ok ⟨⟨10, "tip"⟩, ⟨0, "gen"⟩⟩) baseSyncer 5 =
      .ok { baseSyncer with genesisBlock := ⟨0, "gen"⟩, nextIndex := 5 } ∧
    ({ baseSyncer with genesisBlock := ⟨0, "gen"⟩, nextIndex := 5 } : Syncer).pastBlocks
      = [] :=
  ⟨by decide, by decide, rfl, rfl, rfl⟩

/-- C5 (amended): `nextIndex > genesis.index` does not force `pastBlocks`
to be non-empty (omissions and explicit starts leave it empty); what holds is
that every successful `processBlock` call that invoked `Handler.BlockAdded`
leaves `pastBlocks` non-empty. -/
theorem processBlock_blockAdded_pastBlocks_nonempty
    (hA : Option Block → Option String) (hR : Option BlockIdentifier → Option String)
    (s : Syncer) (br : Option BlockResult)
    (s' : Syncer) (evs : List HandlerEvent) (ob : Option Block)
    (hrun : processBlock hA hR s br = (s', evs, none))
    (hmem : HandlerEvent.blockAdded ob ∈ evs) :
    s'.pastBlocks ≠ [] := by
  cases br with
  | none => simp [processBlock] at hrun
  | some br =>
    simp only [processBlock] at hrun
    split at hrun
    · injection hrun with h1 h23
      injection h23 with h2 h3
      subst h2
      simp at hmem
    · split at hrun
      · injection hrun with h1 h23
        injection h23 with h2 h3
        exact Option.noConfusion h3
      · split at hrun
        · split at hrun
          · injection hrun with h1 h23
            injection h23 with h2 h3
            exact Option.noConfusion h3
          · split at hrun
            · injection hrun with h1 h23
              injection h23 with h2 h3
              exact Option.noConfusion h3
            · injection hrun with h1 h23
              injection h23 with h2 h3
              subst h2
              simp at hmem
        · split at hrun
          · injection hrun with h1 h23
            injection h23 with h2 h3
            exact Option.noConfusion h3
          · split at hrun
            · injection hrun with h1 h23
              injection h23 with h2 h3
              exact Option.noConfusion h3
            · next b hblk =>
              injection hrun with h1 h23
              injection h23 with h2 h3
              subst h1
              show (if (s.pastBlocks ++ [b.blockIdentifier]).length > PastBlockSize then
                      (s.pastBlocks ++ [b.blockIdentifier]).tail
                    else s.pastBlocks ++ [b.blockIdentifier]) ≠ []
              split
              · next htrim =>
                have hlen : 20 < s.pastBlocks.length + 1 := by
                  simpa [PastBlockSize] using htrim
                have htl : (s.pastBlocks ++ [b.blockIdentifier]).tail.length
                    = s.pastBlocks.length := by
                  simp
                intro hnil
                rw [hnil] at htl
                simp at htl
                omega
              · simp

/-- Witness for C5's amended theorem: accepting the first block leaves a
non-empty window. -/
theorem processBlock_blockAdded_pastBlocks_nonempty_witness :
    processBlock acceptAdded acceptRemoved baseSyncer
      (some ⟨0, some ⟨⟨0, "gen"⟩, ⟨0, "gen"⟩⟩, false⟩) =
      ({ baseSyncer with pastBlocks := [⟨0, "gen"⟩], nextIndex := 1 },
        [.blockAdded (some ⟨⟨0, "gen"⟩, ⟨0, "gen"⟩⟩)], none) ∧
    ({ baseSyncer with
        pastBlocks := [⟨0, "gen"⟩],
        nextIndex := 1 } : Syncer).pastBlocks ≠ [] :=
  ⟨by decide,
    processBlock_blockAdded_pastBlocks_nonempty acceptAdded acceptRemoved baseSyncer
      (some ⟨0, some ⟨⟨0, "gen"⟩, ⟨0, "gen"⟩⟩, false⟩)
      { baseSyncer with pastBlocks := [⟨0, "gen"⟩], nextIndex := 1 }
      [.blockAdded (some ⟨⟨0, "gen"⟩, ⟨0, "gen"⟩⟩)]
      (some ⟨⟨0, "gen"⟩, ⟨0, "gen"⟩⟩) (by decide) (by decide)⟩

/-- C6: `processBlock` preserves `|pastBlocks| ≤ PastBlockSize`: an append
that would exceed the bound trims the oldest (head) entry. -/
theorem processBlock_pastBlocks_bounded
    (hA : Option Block → Option String) (hR : Option BlockIdentifier → Option String)
    (s : Syncer) (br : Option BlockResult)
    (hlen : s.pastBlocks.length ≤ PastBlockSize) :
    (processBlock hA hR s br).1.pastBlocks.length ≤ PastBlockSize := by
  cases br with
  | none => simpa [processBlock] using hlen
  | some br =>
    simp only [processBlock]
    split
    · simpa using hlen
    · split
      · simpa using hlen
      · split
        · split
          · simpa using hlen
          · split
            · simpa using hlen
            · dsimp only
              have hd : s.pastBlocks.dropLast.length ≤ s.pastBlocks.length := by
                simp [List.length_dropLast]
              exact le_trans hd hlen
        · split
          · simpa using hlen
          · split
            · simpa using hlen
            · dsimp only
              split
              · simpa using hlen
              · next hfit => exact Nat.le_of_not_lt hfit

/-- Witness for C6: processing an omitted block keeps the bound. -/
theorem processBlock_pastBlocks_bounded_witness :
    baseSyncer.pastBlocks.length ≤ PastBlockSize ∧
    (processBlock acceptAdded acceptRemoved baseSyncer
        (some ⟨0, none, false⟩)).1.pastBlocks.length ≤ PastBlockSize :=
  ⟨by decide,
    processBlock_pastBlocks_bounded acceptAdded acceptRemoved baseSyncer
      (some ⟨0, none, false⟩) (by decide)⟩

/-- C10: whenever `processBlock` fails (nil result, out-of-order, genesis
removal, a Handler error, or even the nil-block dereference), the syncer
state — in particular `nextIndex` and `pastBlocks` — is exactly as before
the call. -/
theorem processBlock_error_atomic
    (hA : Option Block → Option String) (hR : Option BlockIdentifier → Option String)
    (s : Syncer) (br : Option BlockResult)
    (s' : Syncer) (evs : List HandlerEvent) (e : PErr)
    (hrun : processBlock hA hR s br = (s', evs, some e)) :
    s' = s := by
  cases br with
  | none =>
    simp only [processBlock] at hrun
    injection hrun with h1 h23
    exact h1.symm
  | some br =>
    simp only [processBlock] at hrun
    split at hrun
    · injection hrun with h1 h23
      injection h23 with h2 h3
      exact Option.noConfusion h3
    · split at hrun
      · injection hrun with h1 h23
        exact h1.symm
      · split at hrun
        · split at hrun
          · injection hrun with h1 h23
            exact h1.symm
          · split at hrun
            · injection hrun with h1 h23
              exact h1.symm
            · injection hrun with h1 h23
              injection h23 with h2 h3
              exact Option.noConfusion h3
        · split at hrun
          · injection hrun with h1 h23
            exact h1.symm
          · split at hrun
            · injection hrun with h1 h23
              exact h1.symm
            · injection hrun with h1 h23
              injection h23 with h2 h3
              exact Option.noConfusion h3

/-- Witness for C10: a nil block result errors and leaves the state
unchanged. -/
theorem processBlock_error_atomic_witness :
    processBlock acceptAdded acceptRemoved baseSyncer none =
      (baseSyncer, [], some (.goErr .blockResultNil)) ∧
    baseSyncer = baseSyncer :=
  ⟨by decide,
    processBlock_error_atomic acceptAdded acceptRemoved baseSyncer none
      baseSyncer [] (.goErr .blockResultNil) (by decide)⟩

/-- The effective range end per the spec: `tip.index` when `endIndex = -1`
or `endIndex > tip.index`, else `endIndex`. -/
def effectiveRangeEnd (endIndex tipIndex : Int) : Int :=
  if endIndex == -1 || endIndex > tipIndex then tipIndex else endIndex

/-- C7: with a successful `NetworkStatus` reply, `nextSyncableRange` caps the
range at the tip, reports halt exactly when `nextIndex` exceeds the effective
end, and the `Sync` loop terminates successfully on halt exactly when
`endIndex ≠ -1` and `nextIndex > endIndex`. -/
theorem nextSyncableRange_halt_spec
    (s : Syncer) (ns : NetworkStatusResponse) (endIndex : Int)
    (h : s.nextIndex ≠ -1) :
    (nextSyncableRange (.ok ns) s endIndex =
      if s.nextIndex > effectiveRangeEnd endIndex ns.currentBlockIdentifier.index then
        .ok (-1, true)
      else
        .ok (effectiveRangeEnd endIndex ns.currentBlockIdentifier.index, false)) ∧
    (syncShouldTerminateOnHalt s endIndex = true ↔
      (endIndex ≠ -1 ∧ s.nextIndex > endIndex)) := by
  constructor
  · simp only [nextSyncableRange, effectiveRangeEnd]
    rw [if_neg (by simpa using h)]
  · simp [syncShouldTerminateOnHalt, and_comm]

/-- Witness for C7: `nextIndex = 5`, `endIndex = 7`, tip at 10: the range end
is 7, no halt, and the loop would not terminate. -/
theorem nextSyncableRange_halt_spec_witness :
    ({ baseSyncer with nextIndex := 5 } : Syncer).nextIndex ≠ -1 ∧
    (nextSyncableRange (.ok ⟨⟨10, "tip"⟩, ⟨0, "gen"⟩⟩)
        { baseSyncer with nextIndex := 5 } 7 = .ok (7, false) ∧
      (syncShouldTerminateOnHalt { baseSyncer with nextIndex := 5 } 7 = true ↔
        ((7 : Int) ≠ -1 ∧ ({ baseSyncer with nextIndex := 5 } : Syncer).nextIndex > 7))) :=
  ⟨by decide,
    nextSyncableRange_halt_spec { baseSyncer with nextIndex := 5 }
      ⟨⟨10, "tip"⟩, ⟨0, "gen"⟩⟩ 7 (by decide)⟩

/-- The fold step of `adjustWorkers`'s max loop never decreases below its
initial accumulator. -/
theorem foldl_max_ge_init (l : List Int) :
    ∀ m : Int, m ≤ l.foldl (fun m b => if b > m then b else m) m := by
  induction l with
  | nil => intro m; simp
  | cons b l ih =>
    intro m
    simp only [List.foldl_cons]
    refine le_trans ?_ (ih (if b > m then b else m))
    split <;> omega

/-- `maxBlockSize` starts its fold at 0, so it is non-negative. -/
theorem maxBlockSize_nonneg (sizes : List Int) : 0 ≤ maxBlockSize sizes :=
  foldl_max_ge_init sizes 0

/-- C8: in the fast-fall regime (`maxSize × concurrency > cacheSize`, with a
non-negative multiplier and budget), `adjustWorkers` sets `goalConcurrency`
to `max(floor(cacheSize / maxSize), MinConcurrency)`, resets
`lastAdjustment` when that value differs from the current goal, leaves the
live `concurrency` unchanged, and does not request a new worker. -/
theorem adjustWorkers_fastFall_spec
    (s : Syncer)
    (hmult : 0 ≤ s.sizeMultiplier)
    (hcache : 0 ≤ s.cacheSize)
    (hfall : (maxBlockSize s.recentBlockSizes : ℚ) * s.sizeMultiplier * (s.concurrency : ℚ) >
      (s.cacheSize : ℚ)) :
    (adjustWorkers s).1.goalConcurrency =
      (if ⌊(s.cacheSize : ℚ) / ((maxBlockSize s.recentBlockSizes : ℚ) * s.sizeMultiplier)⌋ <
          MinConcurrency then
        MinConcurrency
      else
        ⌊(s.cacheSize : ℚ) / ((maxBlockSize s.recentBlockSizes : ℚ) * s.sizeMultiplier)⌋) ∧
    ((adjustWorkers s).1.goalConcurrency ≠ s.goalConcurrency →
      (adjustWorkers s).1.lastAdjustment = 0) ∧
    (adjustWorkers s).1.concurrency = s.concurrency ∧
    (adjustWorkers s).2 = false := by
  have hM0 : (0 : ℚ) ≤ ((maxBlockSize s.recentBlockSizes : Int) : ℚ) := by
    exact_mod_cast maxBlockSize_nonneg s.recentBlockSizes
  have hMnn : (0 : ℚ) ≤ (maxBlockSize s.recentBlockSizes : ℚ) * s.sizeMultiplier :=
    mul_nonneg hM0 hmult
  have hcq : (0 : ℚ) ≤ ((s.cacheSize : Int) : ℚ) := by exact_mod_cast hcache
  have hrise : ¬ ((maxBlockSize s.recentBlockSizes : ℚ) * s.sizeMultiplier *
      (s.concurrency : ℚ) + (maxBlockSize s.recentBlockSizes : ℚ) * s.sizeMultiplier <
      (s.cacheSize : ℚ)) := by
    intro hlt
    nlinarith [hfall, hMnn]
  have hMpos : (0 : ℚ) < (maxBlockSize s.recentBlockSizes : ℚ) * s.sizeMultiplier := by
    rcases lt_or_eq_of_le hMnn with hp | hz
    · exact hp
    · exfalso
      rw [← hz] at hfall
      simp at hfall
      nlinarith [hfall, hcq]
  set F := ⌊(s.cacheSize : ℚ) / ((maxBlockSize s.recentBlockSizes : ℚ) * s.sizeMultiplier)⌋
    with hF
  set G := (if F < MinConcurrency then MinConcurrency else F : Int) with hG
  have htrunc : int64trunc ((s.cacheSize : ℚ) /
      ((maxBlockSize s.recentBlockSizes : ℚ) * s.sizeMultiplier)) = F := by
    rw [hF]
    unfold int64trunc
    rw [if_pos (div_nonneg hcq (le_of_lt hMpos))]
  by_cases hgoal : (s.goalConcurrency != G) = true
  · refine ⟨?_, ?_, ?_, ?_⟩ <;>
      by_cases htrim : s.recentBlockSizes.length > defaultTrailingWindow <;>
      simp [adjustWorkers, hrise, hfall, htrunc, ← hG, hgoal, htrim]
  · have hgeq : s.goalConcurrency = G := by simpa using hgoal
    refine ⟨?_, ?_, ?_, ?_⟩ <;>
      by_cases htrim : s.recentBlockSizes.length > defaultTrailingWindow <;>
      simp [adjustWorkers, hrise, hfall, htrunc, ← hG, hgoal, htrim, hgeq]

/-- A concrete fast-fall state: one 100-byte block, multiplier 10,
4 workers, budget 3000 (so the estimated cache 4000 exceeds it). -/
def fastFallState : Syncer :=
  { baseSyncer with
    recentBlockSizes := [100]
    sizeMultiplier := 10
    concurrency := 4
    goalConcurrency := 4
    cacheSize := 3000
    maxConcurrency := 256
    lastAdjustment := 7 }

/-- Witness for C8: the goal drops to `floor(3000 / 1000) = 3`, the
adjustment clock resets, and live concurrency stays at 4. -/
theorem adjustWorkers_fastFall_spec_witness :
    ((maxBlockSize fastFallState.recentBlockSizes : ℚ) * fastFallState.sizeMultiplier *
        (fastFallState.concurrency : ℚ) > (fastFallState.cacheSize : ℚ)) ∧
    ((adjustWorkers fastFallState).1.goalConcurrency =
      (if ⌊(fastFallState.cacheSize : ℚ) /
            ((maxBlockSize fastFallState.recentBlockSizes : ℚ) *
              fastFallState.sizeMultiplier)⌋ < MinConcurrency then
        MinConcurrency
      else
        ⌊(fastFallState.cacheSize : ℚ) /
            ((maxBlockSize fastFallState.recentBlockSizes : ℚ) *
              fastFallState.sizeMultiplier)⌋) ∧
      ((adjustWorkers fastFallState).1.goalConcurrency ≠ fastFallState.goalConcurrency →
        (adjustWorkers fastFallState).1.lastAdjustment = 0) ∧
      (adjustWorkers fastFallState).1.concurrency = fastFallState.concurrency ∧
      (adjustWorkers fastFallState).2 = false) :=
  ⟨by norm_num [maxBlockSize, fastFallState, baseSyncer],
    adjustWorkers_fastFall_spec fastFallState
      (by norm_num [fastFallState, baseSyncer])
      (by norm_num [fastFallState, baseSyncer])
      (by norm_num [maxBlockSize, fastFallState, baseSyncer])⟩

/-- C9 fails on the code: an orphan-head result received while `pastBlocks`
is empty slips past `checkRemove` into the append branch, so `processBlock`
invokes `Handler.BlockAdded` with a nil block and then dereferences it
(`block.BlockIdentifier`), a runtime panic in Go. -/
theorem processBlock_nilDeref_empty_orphan :
    processBlock acceptAdded acceptRemoved baseSyncer (some ⟨1, none, true⟩) =
      (baseSyncer, [HandlerEvent.blockAdded none], some PErr.nilDeref) := by
  decide
